import Mathlib

/-!
Verification of the Prism incremental synchronization engine.

This file gives a shallow embedding of the sync engine of the Prism
repository (src/lib/readwise.ts, src/app/actions/sync.ts,
src/app/actions/triage.ts) and proves or refutes the frozen claims
about it.

Modelling conventions:
* JavaScript `Date` values are modelled by the opaque inductive `DateVal`,
  recording exactly how the code constructed the value (parsed from a wire
  string, or taken from the clock in milliseconds).  No claim depends on the
  numeric value of a parsed date, only on presence and provenance.
* Database rows (the singleton `syncState` row and the `document` table) are
  passed explicitly: the `document` table is a list of rows, the state row an
  `Option SyncRecord`.
* Network effects are oracles passed as function arguments: a page fetch is
  `FetchCall → Except String Page`, a per-document upsert failure is
  `DocRecord → Option String`, an upstream document update is
  `String → UpdatePatch → Except String Unit`.
* JavaScript truthiness on optional strings (`Boolean(x)`, `x ? a : b`,
  `x || y`) is modelled faithfully: `none` and `some ""` are falsy.
-/

/-- Model of a JavaScript `Date`: either `new Date(s)` for a wire string `s`,
or a clock reading in milliseconds (`new Date()` at time `now`). -/
inductive DateVal where
  | fromString : String → DateVal
  | fromMillis : Nat → DateVal
deriving Repr, DecidableEq

/-- Model of `Date#toISOString`; an abstract injective rendering (the claims
depend only on whether a value is passed, never on the rendered text). -/
def DateVal.toISOString : DateVal → String
  | DateVal.fromString s => s
  | DateVal.fromMillis n => toString n

/-- JS truthiness of an optional string: `undefined`/`null` and `""` are falsy. -/
def optStrTruthy : Option String → Bool
  | some s => !s.isEmpty
  | none => false

/-- A tag object on the wire (readwise.ts, `ReadwiseDocument.tags` element). -/
structure ReadwiseTagObj where
  name : String
  type : String
  created : Nat
deriving Repr, DecidableEq

/-- The two wire variants of the tag collection (readwise.ts line 17):
an array of tag objects, or a mapping of tag-key to tag object. -/
inductive TagsWire where
  | arr : List ReadwiseTagObj → TagsWire
  | map : List (String × ReadwiseTagObj) → TagsWire
deriving Repr, DecidableEq

/-- Upstream document representation (readwise.ts, `ReadwiseDocument`).
Optional TS fields are `Option`; `tags` is optional because the transformer
guards it with `if (doc.tags)`. -/
structure ReadwiseDocument where
  id : String
  url : String
  source_url : Option String
  title : Option String
  author : Option String
  source : Option String
  category : String
  location : String
  tags : Option TagsWire
  site_name : Option String
  word_count : Option Nat
  summary : Option String
  published_date : Option String
  created_at : String
  updated_at : String
  first_opened_at : Option String
  last_opened_at : Option String
  last_moved_at : Option String
  reading_progress : Option Rat
  parent_id : Option String
  image_url : Option String
  notes : Option String
deriving Repr, DecidableEq

/-- Local persisted document shape (the object literal returned by
`transformDocument` in sync.ts lines 249-269). -/
structure DocRecord where
  readwiseId : String
  url : String
  sourceUrl : Option String
  title : Option String
  author : Option String
  summary : Option String
  category : String
  location : String
  tags : List String
  siteName : Option String
  wordCount : Option Nat
  publishedDate : Option DateVal
  firstOpenedAt : Option DateVal
  lastOpenedAt : Option DateVal
  lastMovedAt : Option DateVal
  readingProgress : Rat
  parentId : Option String
  createdAt : DateVal
  updatedAt : DateVal
deriving Repr, DecidableEq

/-- Model of `x ? new Date(x) : null` on an optional wire string: absent and
empty strings map to `none` (JS truthiness), anything else is parsed. -/
def jsDateOrNull : Option String → Option DateVal
  | some v => if v.isEmpty then none else some (DateVal.fromString v)
  | none => none

/-- `transformDocument` (sync.ts lines 238-270): pure map from the upstream
representation to the local persisted shape. -/
def transformDocument (doc : ReadwiseDocument) : DocRecord :=
  let tags : List String :=
    match doc.tags with
    | none => []
    | some (TagsWire.arr l) => l.map (fun t => t.name)
    | some (TagsWire.map m) => (m.map (fun kv => kv.2)).map (fun t => t.name)
  { readwiseId := doc.id
    url := doc.url
    sourceUrl := doc.source_url
    title := doc.title
    author := doc.author
    summary := doc.summary
    category := doc.category
    location := doc.location
    tags := tags
    siteName := doc.site_name
    wordCount := doc.word_count
    publishedDate := jsDateOrNull doc.published_date
    firstOpenedAt := jsDateOrNull doc.first_opened_at
    lastOpenedAt := jsDateOrNull doc.last_opened_at
    lastMovedAt := jsDateOrNull doc.last_moved_at
    readingProgress := doc.reading_progress.getD 0
    parentId := doc.parent_id
    createdAt := DateVal.fromString doc.created_at
    updatedAt := DateVal.fromString doc.updated_at }

/-- Persisted singleton sync state row (prisma `syncState`, id "main").
The `status` column is a string; the code writes "idle", "syncing", "error". -/
structure SyncRecord where
  status : String
  lastCursor : Option String
  lastSyncAt : Option DateVal
  totalSynced : Nat
  errorMsg : Option String
deriving Repr, DecidableEq

/-- Progress report returned to the caller (sync.ts, `SyncProgress`). -/
structure SyncProgress where
  status : String
  totalSynced : Nat
  currentBatch : Nat
  hasMore : Bool
  error : Option String
deriving Repr, DecidableEq

/-- Arguments the sync engine passes to `client.fetchDocuments`
(sync.ts lines 109-112). -/
structure FetchCall where
  pageCursor : Option String
  updatedAfter : Option String
deriving Repr, DecidableEq

/-- One page of the upstream list endpoint (readwise.ts,
`ReadwiseListResponse`). -/
structure Page where
  count : Nat
  nextPageCursor : Option String
  results : List ReadwiseDocument
deriving Repr, DecidableEq

/-- The local document table: one row per document, `readwiseId` unique. -/
abbrev Store := List DocRecord

/-- Prisma `document.upsert` keyed by `readwiseId`: full replace on conflict,
insert otherwise (sync.ts lines 117-123). -/
def upsertDoc (store : Store) (d : DocRecord) : Store :=
  if store.any (fun e => e.readwiseId = d.readwiseId) then
    store.map (fun e => if e.readwiseId = d.readwiseId then d else e)
  else store ++ [d]

/-- The upsert loop of `syncNextBatch` (sync.ts lines 117-123), with a
per-document failure oracle: rows upserted before a failure stay committed
(each prisma statement commits on its own), and the first failure aborts the
loop with its message. -/
def upsertAll (fail : DocRecord → Option String) : Store → List DocRecord → Store × Option String
  | store, [] => (store, none)
  | store, d :: ds =>
    match fail d with
    | some msg => (store, some msg)
    | none => upsertAll fail (upsertDoc store d) ds

/-- JS truthiness of the settings token (`!settings?.apiToken` in sync.ts,
`!token` in triage.ts): missing or empty tokens are not configured. -/
def tokenPresent : Option String → Bool
  | some t => !t.isEmpty
  | none => false

/-- Model of the cursor fragment in the persisted error annotation
(sync.ts line 163): the first 20 characters of the cursor via substring, or
the fallback text "start" when the cursor is null or empty (JS falsiness of
the OR operator). -/
def cursorTag : Option String → String
  | none => "start"
  | some c => if c = "" then "start" else String.mk (c.data.take 20)

/-- The persisted error annotation of sync.ts line 163. -/
def annotateError (msg : String) (cursor : Option String) : String :=
  msg ++ " (at cursor: " ++ cursorTag cursor ++ "...)"

/-- The arguments `syncNextBatch` hands to `client.fetchDocuments`
(sync.ts lines 109-112): `pageCursor: syncState.lastCursor ?? undefined`,
`updatedAfter: syncState.lastSyncAt?.toISOString()`. -/
def fetchCallOf (s : SyncRecord) : FetchCall :=
  { pageCursor := s.lastCursor
    updatedAfter := s.lastSyncAt.map DateVal.toISOString }

/-- `syncNextBatch` (sync.ts lines 76-175), one advance step of the sync
state machine.  Inputs: settings token, persisted state row, fetch oracle,
per-document upsert failure oracle, document table, clock (ms).
Output: the progress report, the persisted state row after the step, and the
document table after the step. -/
def syncNextBatch (apiToken : Option String) (state : Option SyncRecord)
    (fetch : FetchCall → Except String Page)
    (upsertFail : DocRecord → Option String)
    (store : Store) (now : Nat) :
    SyncProgress × Option SyncRecord × Store :=
  if tokenPresent apiToken = false then
    ({ status := "error", totalSynced := 0, currentBatch := 0, hasMore := false,
       error := some "No API token configured" }, state, store)
  else
    match state with
    | none =>
      ({ status := "idle", totalSynced := 0, currentBatch := 0, hasMore := false,
         error := none }, none, store)
    | some s =>
      if s.status ≠ "syncing" then
        ({ status := "idle", totalSynced := s.totalSynced, currentBatch := 0,
           hasMore := false, error := none }, some s, store)
      else
        match fetch (fetchCallOf s) with
        | Except.error msg =>
          ({ status := "error", totalSynced := s.totalSynced, currentBatch := 0,
             hasMore := false, error := some msg },
           some { s with status := "error",
                         errorMsg := some (annotateError msg s.lastCursor) },
           store)
        | Except.ok page =>
          let docs := page.results.map transformDocument
          match upsertAll upsertFail store docs with
          | (store2, some msg) =>
            ({ status := "error", totalSynced := s.totalSynced, currentBatch := 0,
               hasMore := false, error := some msg },
             some { s with status := "error",
                           errorMsg := some (annotateError msg s.lastCursor) },
             store2)
          | (store2, none) =>
            let hasMore := optStrTruthy page.nextPageCursor && decide (0 < docs.length)
            let currentTotal := store2.length
            ({ status := if hasMore then "syncing" else "completed",
               totalSynced := currentTotal, currentBatch := docs.length,
               hasMore := hasMore, error := none },
             some { status := if hasMore then "syncing" else "idle"
                    lastCursor := page.nextPageCursor
                    lastSyncAt := if hasMore then s.lastSyncAt
                                  else some (DateVal.fromMillis now)
                    totalSynced := currentTotal
                    errorMsg := none },
             store2)

/-- `startSync` (sync.ts lines 22-74): token check, idempotent return when a
sync is already running, otherwise upsert the state row into `syncing` with
the cursor and error message cleared.  (In the prisma `create` branch the
omitted optional columns default to null.) -/
def startSync (apiToken : Option String) (state : Option SyncRecord) :
    SyncProgress × Option SyncRecord :=
  if tokenPresent apiToken = false then
    ({ status := "error", totalSynced := 0, currentBatch := 0, hasMore := false,
       error := some "No API token configured. Please add your Readwise API token in settings." },
     state)
  else
    match state with
    | some s =>
      if s.status = "syncing" then
        ({ status := "syncing", totalSynced := s.totalSynced, currentBatch := 0,
           hasMore := true, error := none }, some s)
      else
        ({ status := "syncing", totalSynced := 0, currentBatch := 0,
           hasMore := true, error := none },
         some { s with status := "syncing", errorMsg := none, lastCursor := none })
    | none =>
      ({ status := "syncing", totalSynced := 0, currentBatch := 0,
         hasMore := true, error := none },
       some { status := "syncing", lastCursor := none, lastSyncAt := none,
              totalSynced := 0, errorMsg := none })

/-- `clearError` (sync.ts lines 177-190): sets status to "idle", clears the
error message, and leaves every other column (in particular `lastCursor`)
untouched. -/
def clearError (s : SyncRecord) : SyncRecord :=
  { s with status := "idle", errorMsg := none }

/-- `minRequestInterval` of the API client (readwise.ts line 53): 3 seconds
between requests (20 req/min). -/
def minRequestInterval : Nat := 3000

/-- An HTTP response as the retry logic observes it: the status code and the
numeric `Retry-After` header in seconds when present. -/
structure HttpResponse where
  status : Nat
  retryAfter : Option Nat
deriving Repr, DecidableEq

/-- One network attempt: the response the wire will produce for the next
outbound request, and how long after the send it arrives. -/
structure Attempt where
  response : HttpResponse
  latency : Nat
deriving Repr, DecidableEq

/-- Request admission of `rateLimitedFetch` (readwise.ts lines 64-72): if
less than `minRequestInterval` has elapsed since `lastRequestTime`, sleep the
remainder; the request is sent when the sleep ends. -/
def admissionSend (lastRequestTime now : Nat) : Nat :=
  if now - lastRequestTime < minRequestInterval then
    now + (minRequestInterval - (now - lastRequestTime))
  else now

/-- Outcome of the response-handling policy of `rateLimitedFetch`: either
sleep a given number of milliseconds and retry with a given retry count, or
return the response to the caller. -/
inductive RetryDecision where
  | retryAfterWait : Nat → Nat → RetryDecision
  | surface : RetryDecision
deriving Repr, DecidableEq

/-- The response-handling policy of `rateLimitedFetch` (readwise.ts lines
84-101): 429 retries with the provider wait (or `minRequestInterval * 2`)
and the same retry count; 500 with `retryCount < 3` retries after
`2 ^ retryCount * 2000` ms with the count incremented; every other response
is returned. -/
def retryDecision (status : Nat) (retryAfter : Option Nat) (retryCount : Nat) :
    RetryDecision :=
  if status = 429 then
    RetryDecision.retryAfterWait
      (match retryAfter with
       | some secs => secs * 1000
       | none => minRequestInterval * 2)
      retryCount
  else if status = 500 ∧ retryCount < 3 then
    RetryDecision.retryAfterWait (2 ^ retryCount * 2000) (retryCount + 1)
  else
    RetryDecision.surface

/-- Timed run of `rateLimitedFetch` (readwise.ts lines 59-102) against a
trace of network attempts.  Arguments: remaining attempts, `retryCount`,
`lastRequestTime`, and the clock at entry.  Returns the send time of every
outbound request (in order), the final `lastRequestTime` field, and the
response surfaced to the caller (`none` when the trace runs out while the
code would still be retrying).  `lastRequestTime` is updated to the send
time, immediately before the request goes out, matching line 72. -/
def rateLimitedFetchRun :
    List Attempt → Nat → Nat → Nat → List Nat × Nat × Option HttpResponse
  | [], _, lastRequestTime, _ => ([], lastRequestTime, none)
  | a :: rest, retryCount, lastRequestTime, now =>
    let send := admissionSend lastRequestTime now
    let respTime := send + a.latency
    match retryDecision a.response.status a.response.retryAfter retryCount with
    | RetryDecision.retryAfterWait wait rc2 =>
      let r := rateLimitedFetchRun rest rc2 send (respTime + wait)
      (send :: r.1, r.2)
    | RetryDecision.surface => ([send], send, some a.response)

/-- A JSON patch for the upstream per-document update endpoint
(readwise.ts, `updateDocument` params). -/
structure UpdatePatch where
  title : Option String
  author : Option String
  summary : Option String
  publishedDate : Option String
  imageUrl : Option String
  location : Option String
  category : Option String
  tags : Option (List String)
  seen : Option Bool
deriving Repr, DecidableEq

/-- The patch `archiveDocument` sends: `{ location: "archive" }`
(readwise.ts line 364). -/
def archivePatch : UpdatePatch :=
  { title := none, author := none, summary := none, publishedDate := none,
    imageUrl := none, location := some "archive", category := none,
    tags := none, seen := none }

/-- `batchArchive` (readwise.ts lines 371-399): one `updateDocument(id,
{location: "archive"})` call per ID, in order; a failure records the ID and
message and the loop continues.  Returns the trace of upstream calls, the
success list, and the failure list. -/
def batchArchive (updateDoc : String → UpdatePatch → Except String Unit) :
    List String → List (String × UpdatePatch) × List String × List (String × String)
  | [] => ([], [], [])
  | id :: rest =>
    let r := batchArchive updateDoc rest
    match updateDoc id archivePatch with
    | Except.ok _ => ((id, archivePatch) :: r.1, id :: r.2.1, r.2.2)
    | Except.error e => ((id, archivePatch) :: r.1, r.2.1, (id, e) :: r.2.2)

/-- The result shape of `archiveDocuments` (triage.ts, `ArchiveResult`). -/
structure ArchiveResult where
  success : Nat
  failed : Nat
  errors : List String
deriving Repr, DecidableEq

/-- `archiveDocuments` (triage.ts lines 676-708): token check, run the batch
archive, then one bulk local update setting `location = "archive"` and
`lastMovedAt = now` for the rows whose `readwiseId` is in the success set
(guarded by `result.success.length > 0`). -/
def archiveDocuments (apiToken : Option String)
    (updateDoc : String → UpdatePatch → Except String Unit)
    (store : Store) (readwiseIds : List String) (now : Nat) :
    ArchiveResult × Store :=
  if tokenPresent apiToken = false then
    ({ success := 0, failed := readwiseIds.length,
       errors := ["No API token configured"] }, store)
  else
    let r := batchArchive updateDoc readwiseIds
    let succ := r.2.1
    let failedList := r.2.2
    let store2 :=
      if 0 < succ.length then
        store.map (fun d =>
          if succ.contains d.readwiseId then
            { d with location := "archive",
                     lastMovedAt := some (DateVal.fromMillis now) }
          else d)
      else store
    ({ success := succ.length, failed := failedList.length,
       errors := failedList.map (fun f => f.1 ++ ": " ++ f.2) }, store2)

/-! Helper lemmas shared by the claim theorems. -/

/-- Request admission never sends earlier than `lastRequestTime`
plus the minimum interval (given a monotone clock). -/
theorem admissionSend_lower (last now : Nat) (h : last ≤ now) :
    last + minRequestInterval ≤ admissionSend last now := by
  unfold admissionSend
  split <;> omega

/-- Appending chains: a chain from `a` over `l1` extends by a chain from the
last element of `l1` over `l2`. -/
theorem chain_append_of {α : Type} {R : α → α → Prop} {a : α} {l1 l2 : List α}
    (h1 : List.Chain R a l1) (h2 : List.Chain R (l1.getLastD a) l2) :
    List.Chain R a (l1 ++ l2) := by
  induction l1 generalizing a with
  | nil => simpa using h2
  | cons b t ih =>
    rcases h1 with _ | ⟨hab, hbt⟩
    rw [List.getLastD_cons] at h2
    exact List.Chain.cons hab (ih hbt h2)

/-- When no individual upsert fails, the upsert loop is the plain fold of
`upsertDoc` and reports no error. -/
theorem upsertAll_of_no_fail (fail : DocRecord → Option String)
    (h : ∀ d, fail d = none) :
    ∀ (ds : List DocRecord) (store : Store),
      upsertAll fail store ds = (ds.foldl upsertDoc store, none) := by
  intro ds
  induction ds with
  | nil => intro store; rfl
  | cons d ds ih => intro store; simp [upsertAll, h d, ih]

/-- Normal form of a fully successful advance step: token present, status
syncing, fetch returns a page, every upsert succeeds. -/
theorem syncNextBatch_success (tok : Option String) (s : SyncRecord)
    (fetch : FetchCall → Except String Page) (fail : DocRecord → Option String)
    (store : Store) (now : Nat) (page : Page)
    (htok : tokenPresent tok = true) (hst : s.status = "syncing")
    (hfetch : fetch (fetchCallOf s) = Except.ok page)
    (hfail : ∀ d, fail d = none) :
    syncNextBatch tok (some s) fetch fail store now
      = (let docs := page.results.map transformDocument
         let store2 := docs.foldl upsertDoc store
         let hasMore := optStrTruthy page.nextPageCursor && decide (0 < docs.length)
         ({ status := if hasMore then "syncing" else "completed",
            totalSynced := store2.length, currentBatch := docs.length,
            hasMore := hasMore, error := none },
          some { status := if hasMore then "syncing" else "idle"
                 lastCursor := page.nextPageCursor
                 lastSyncAt := if hasMore then s.lastSyncAt
                               else some (DateVal.fromMillis now)
                 totalSynced := store2.length
                 errorMsg := none },
          store2)) := by
  simp [syncNextBatch, htok, hst, hfetch, upsertAll_of_no_fail fail hfail]

/-! Concrete fixtures used by closed theorems and witnesses. -/

/-- A concrete upstream document. -/
def exUpstreamDoc : ReadwiseDocument :=
  { id := "doc1", url := "https://example.com/a", source_url := none,
    title := some "T", author := none, source := none, category := "article",
    location := "new", tags := none, site_name := none, word_count := some 100,
    summary := none, published_date := none, created_at := "2024-01-01",
    updated_at := "2024-01-02", first_opened_at := none, last_opened_at := none,
    last_moved_at := none, reading_progress := some 1, parent_id := none,
    image_url := none, notes := none }

/-- A concrete persisted state in the error status, with a retained cursor. -/
def errState : SyncRecord :=
  { status := "error", lastCursor := some "CUR7",
    lastSyncAt := some (DateVal.fromMillis 5), totalSynced := 42,
    errorMsg := some "boom" }

/-- A concrete persisted state in the syncing status at the start of a cycle. -/
def syncingState : SyncRecord :=
  { status := "syncing", lastCursor := none, lastSyncAt := none,
    totalSynced := 0, errorMsg := none }

/-- A concrete persisted state in the syncing status holding a resume cursor
and a last-sync timestamp (a later page of an incremental cycle). -/
def resumeState : SyncRecord :=
  { status := "syncing", lastCursor := some "C7",
    lastSyncAt := some (DateVal.fromMillis 1000), totalSynced := 10,
    errorMsg := none }

/-- A page whose next cursor is the empty string and whose results are
non-empty. -/
def emptyCursorPage : Page :=
  { count := 1, nextPageCursor := some "", results := [exUpstreamDoc] }

/-- Claim C7: `transformDocument` is a pure function that normalizes both tag
wire variants (array of tag objects, or map of tag-key to tag object) to one
list of tag name strings, maps each absent optional timestamp field
(first_opened_at, last_opened_at, last_moved_at, published_date) to an
explicit null, and maps a missing reading_progress to 0. -/
theorem transform_normalization :
    (∀ (doc : ReadwiseDocument) (l : List ReadwiseTagObj),
        (transformDocument { doc with tags := some (TagsWire.arr l) }).tags
          = l.map (fun t => t.name))
  ∧ (∀ (doc : ReadwiseDocument) (m : List (String × ReadwiseTagObj)),
        (transformDocument { doc with tags := some (TagsWire.map m) }).tags
          = (m.map (fun kv => kv.2)).map (fun t => t.name))
  ∧ (∀ doc : ReadwiseDocument,
        (transformDocument { doc with tags := none }).tags = [])
  ∧ (∀ doc : ReadwiseDocument,
        (transformDocument { doc with first_opened_at := none }).firstOpenedAt = none)
  ∧ (∀ doc : ReadwiseDocument,
        (transformDocument { doc with last_opened_at := none }).lastOpenedAt = none)
  ∧ (∀ doc : ReadwiseDocument,
        (transformDocument { doc with last_moved_at := none }).lastMovedAt = none)
  ∧ (∀ doc : ReadwiseDocument,
        (transformDocument { doc with published_date := none }).publishedDate = none)
  ∧ (∀ doc : ReadwiseDocument,
        (transformDocument { doc with reading_progress := none }).readingProgress = 0) := by
  refine ⟨?_, ?_, ?_, ?_, ?_, ?_, ?_, ?_⟩ <;>
    intros <;> simp [transformDocument, jsDateOrNull]

/-- Claim C3 (code bug evidence): on a persisted error state, `clearError`
moves the status to "idle", not "syncing", while clearing the message and
keeping the cursor; a subsequent advance step then refuses to run (state row
and table unchanged, idle report), and the only re-entry into syncing,
`startSync`, discards the retained cursor. -/
theorem clear_error_goes_idle :
    clearError errState
      = { status := "idle", lastCursor := some "CUR7",
          lastSyncAt := some (DateVal.fromMillis 5), totalSynced := 42,
          errorMsg := none }
  ∧ (clearError errState).status ≠ "syncing"
  ∧ (syncNextBatch (some "tok") (some (clearError errState))
       (fun _ => Except.ok { count := 1, nextPageCursor := some "next",
                             results := [exUpstreamDoc] })
       (fun _ => none) [] 9).2.1 = some (clearError errState)
  ∧ (syncNextBatch (some "tok") (some (clearError errState))
       (fun _ => Except.ok { count := 1, nextPageCursor := some "next",
                             results := [exUpstreamDoc] })
       (fun _ => none) [] 9).2.2 = []
  ∧ (syncNextBatch (some "tok") (some (clearError errState))
       (fun _ => Except.ok { count := 1, nextPageCursor := some "next",
                             results := [exUpstreamDoc] })
       (fun _ => none) [] 9).1.status = "idle"
  ∧ (startSync (some "tok") (some (clearError errState))).2
      = some { status := "syncing", lastCursor := none,
               lastSyncAt := some (DateVal.fromMillis 5), totalSynced := 42,
               errorMsg := none } := by
  refine ⟨by decide, by decide, by decide, by decide, by decide, by decide⟩

/-- Claim C1 (counterexample): a fetched page with the empty-string next
cursor and non-empty results has neither a null cursor nor zero results, yet
the advance step persists status "idle" and sets `lastSyncAt`, because the
code tests JS truthiness of the cursor rather than null-ness. -/
theorem terminal_on_empty_string_cursor :
    emptyCursorPage.nextPageCursor ≠ none
  ∧ emptyCursorPage.results ≠ []
  ∧ (syncNextBatch (some "tok") (some syncingState)
       (fun _ => Except.ok emptyCursorPage) (fun _ => none) [] 77).2.1
      = some { status := "idle", lastCursor := some "",
               lastSyncAt := some (DateVal.fromMillis 77), totalSynced := 1,
               errorMsg := none } := by
  refine ⟨by decide, by decide, by decide⟩

/-- Claim C4 (counterexample): on a step that holds a resume cursor (not the
first page of the cycle), the engine still passes the persisted `lastSyncAt`
as `updatedAfter` to the page fetch: an oracle that fails exactly when
`updatedAfter` is present observes the lower bound and fails the step. -/
theorem updated_after_on_cursor_page :
    resumeState.lastCursor ≠ none
  ∧ (fetchCallOf resumeState).updatedAfter ≠ none
  ∧ (syncNextBatch (some "tok") (some resumeState)
       (fun call => if call.updatedAfter = none
                    then Except.ok { count := 0, nextPageCursor := none, results := [] }
                    else Except.error "lower bound was passed")
       (fun _ => none) [] 0).1.error = some "lower bound was passed" := by
  refine ⟨by decide, by decide, by decide⟩

/-- Claim C1 (amended): for every advance step that succeeds (token present,
status syncing, fetch returns a page, no upsert failure), if the fetched page
has a falsy nextPageCursor (null or empty string) OR zero results, the
persisted status transitions to "idle" and `lastSyncAt` is set to the current
time, regardless of prior history; otherwise the status stays "syncing" and
`lastSyncAt` is unchanged. -/
theorem terminal_detection (tok : Option String) (s : SyncRecord)
    (fetch : FetchCall → Except String Page) (fail : DocRecord → Option String)
    (store : Store) (now : Nat) (page : Page)
    (htok : tokenPresent tok = true) (hst : s.status = "syncing")
    (hfetch : fetch (fetchCallOf s) = Except.ok page)
    (hfail : ∀ d, fail d = none) :
    ((page.nextPageCursor = none ∨ page.nextPageCursor = some "" ∨ page.results = []) →
      ∃ s2, (syncNextBatch tok (some s) fetch fail store now).2.1 = some s2
        ∧ s2.status = "idle" ∧ s2.lastSyncAt = some (DateVal.fromMillis now))
  ∧ ((optStrTruthy page.nextPageCursor = true ∧ page.results ≠ []) →
      ∃ s2, (syncNextBatch tok (some s) fetch fail store now).2.1 = some s2
        ∧ s2.status = "syncing" ∧ s2.lastSyncAt = s.lastSyncAt) := by
  rw [syncNextBatch_success tok s fetch fail store now page htok hst hfetch hfail]
  have hempty : String.isEmpty "" = true := by decide
  constructor
  · intro hterm
    refine ⟨_, rfl, ?_, ?_⟩ <;>
      rcases hterm with h | h | h <;>
        simp [h, optStrTruthy, hempty]
  · intro h
    obtain ⟨hcur, hres⟩ := h
    refine ⟨_, rfl, ?_, ?_⟩ <;> simp [hcur, hres, List.length_pos]

/-- Witness for terminal_detection at a concrete terminal input (a page with
one result and a null next cursor). -/
theorem terminal_detection_witness :
    ((({ count := 1, nextPageCursor := none, results := [exUpstreamDoc] } : Page).nextPageCursor = none
        ∨ ({ count := 1, nextPageCursor := none, results := [exUpstreamDoc] } : Page).nextPageCursor = some ""
        ∨ ({ count := 1, nextPageCursor := none, results := [exUpstreamDoc] } : Page).results = []) →
      ∃ s2, (syncNextBatch (some "tok") (some syncingState)
          (fun _ => Except.ok { count := 1, nextPageCursor := none, results := [exUpstreamDoc] })
          (fun _ => none) [] 77).2.1 = some s2
        ∧ s2.status = "idle" ∧ s2.lastSyncAt = some (DateVal.fromMillis 77))
  ∧ ((optStrTruthy ({ count := 1, nextPageCursor := none, results := [exUpstreamDoc] } : Page).nextPageCursor = true
        ∧ ({ count := 1, nextPageCursor := none, results := [exUpstreamDoc] } : Page).results ≠ []) →
      ∃ s2, (syncNextBatch (some "tok") (some syncingState)
          (fun _ => Except.ok { count := 1, nextPageCursor := none, results := [exUpstreamDoc] })
          (fun _ => none) [] 77).2.1 = some s2
        ∧ s2.status = "syncing" ∧ s2.lastSyncAt = syncingState.lastSyncAt) :=
  terminal_detection (some "tok") syncingState
    (fun _ => Except.ok { count := 1, nextPageCursor := none, results := [exUpstreamDoc] })
    (fun _ => none) [] 77
    { count := 1, nextPageCursor := none, results := [exUpstreamDoc] }
    (by decide) (by decide) rfl (fun _ => rfl)

/-- Claim C2: every advance step that starts with status "syncing" and whose
fetch or upsert raises persists status "error" (never left "syncing"), keeps
`lastCursor` at the value in effect at the start of the step, keeps
`lastSyncAt` and `totalSynced`, and persists an error message annotated with
the first 20 characters of that cursor (a prefix of the cursor value). -/
theorem advance_error_atomicity (tok : Option String) (s : SyncRecord)
    (fetch : FetchCall → Except String Page) (fail : DocRecord → Option String)
    (store : Store) (now : Nat) (msg : String)
    (htok : tokenPresent tok = true) (hst : s.status = "syncing")
    (herr : fetch (fetchCallOf s) = Except.error msg
          ∨ ∃ page, fetch (fetchCallOf s) = Except.ok page
              ∧ (upsertAll fail store (page.results.map transformDocument)).2
                  = some msg) :
    ∃ s2, (syncNextBatch tok (some s) fetch fail store now).2.1 = some s2
      ∧ s2.status = "error"
      ∧ s2.lastCursor = s.lastCursor
      ∧ s2.lastSyncAt = s.lastSyncAt
      ∧ s2.totalSynced = s.totalSynced
      ∧ s2.errorMsg = some (annotateError msg s.lastCursor)
      ∧ (∀ c : String, s.lastCursor = some c → c ≠ "" →
            s2.errorMsg = some (msg ++ " (at cursor: "
                ++ String.mk (c.data.take 20) ++ "...)")
            ∧ c.data.take 20 <+: c.data) := by
  have hpre : ∀ c : String, s.lastCursor = some c → c ≠ "" →
      annotateError msg s.lastCursor
        = msg ++ " (at cursor: " ++ String.mk (c.data.take 20) ++ "...)" := by
    intro c hc hne
    simp [annotateError, cursorTag, hc, hne]
  rcases herr with hfe | ⟨page, hfp, hup⟩
  · have hstep : (syncNextBatch tok (some s) fetch fail store now).2.1
        = some { s with status := "error",
                        errorMsg := some (annotateError msg s.lastCursor) } := by
      simp [syncNextBatch, htok, hst, hfe]
    refine ⟨_, hstep, rfl, rfl, rfl, rfl, rfl, ?_⟩
    intro c hc hne
    exact ⟨by simp [hpre c hc hne], List.take_prefix 20 c.data⟩
  · rcases hpair : upsertAll fail store (page.results.map transformDocument)
      with ⟨store2, err⟩
    rw [hpair] at hup
    simp only at hup
    subst hup
    have hstep : (syncNextBatch tok (some s) fetch fail store now).2.1
        = some { s with status := "error",
                        errorMsg := some (annotateError msg s.lastCursor) } := by
      simp [syncNextBatch, htok, hst, hfp, hpair]
    refine ⟨_, hstep, rfl, rfl, rfl, rfl, rfl, ?_⟩
    intro c hc hne
    exact ⟨by simp [hpre c hc hne], List.take_prefix 20 c.data⟩

/-- Witness for advance_error_atomicity: a concrete step whose fetch raises
while a long cursor is held. -/
theorem advance_error_atomicity_witness :
    ∃ s2, (syncNextBatch (some "tok") (some resumeState)
        (fun _ => Except.error "boom") (fun _ => none) [] 3).2.1 = some s2
      ∧ s2.status = "error"
      ∧ s2.lastCursor = resumeState.lastCursor
      ∧ s2.lastSyncAt = resumeState.lastSyncAt
      ∧ s2.totalSynced = resumeState.totalSynced
      ∧ s2.errorMsg = some (annotateError "boom" resumeState.lastCursor)
      ∧ (∀ c : String, resumeState.lastCursor = some c → c ≠ "" →
            s2.errorMsg = some ("boom" ++ " (at cursor: "
                ++ String.mk (c.data.take 20) ++ "...)")
            ∧ c.data.take 20 <+: c.data) :=
  advance_error_atomicity (some "tok") resumeState
    (fun _ => Except.error "boom") (fun _ => none) [] 3 "boom"
    (by decide) (by decide) (Or.inl rfl)

/-- Claim C9: after every successful advance step, the persisted
`totalSynced` equals the count of rows in the document table at that moment
(recomputed, for an arbitrary prior `totalSynced` and an arbitrary prior
table, including leftovers of earlier partial upserts). -/
theorem total_reconciliation (tok : Option String) (s : SyncRecord)
    (fetch : FetchCall → Except String Page) (fail : DocRecord → Option String)
    (store : Store) (now : Nat) (page : Page)
    (htok : tokenPresent tok = true) (hst : s.status = "syncing")
    (hfetch : fetch (fetchCallOf s) = Except.ok page)
    (hfail : ∀ d, fail d = none) :
    ∃ s2, (syncNextBatch tok (some s) fetch fail store now).2.1 = some s2
      ∧ s2.totalSynced
          = (syncNextBatch tok (some s) fetch fail store now).2.2.length
      ∧ (syncNextBatch tok (some s) fetch fail store now).1.totalSynced
          = (syncNextBatch tok (some s) fetch fail store now).2.2.length := by
  rw [syncNextBatch_success tok s fetch fail store now page htok hst hfetch hfail]
  exact ⟨_, rfl, rfl, rfl⟩

/-- Witness for total_reconciliation: a concrete step over a table already
holding the fetched document (upsert replaces, count stays 1) with a stale
persisted total of 10. -/
theorem total_reconciliation_witness :
    ∃ s2, (syncNextBatch (some "tok") (some resumeState)
        (fun _ => Except.ok { count := 1, nextPageCursor := none,
                              results := [exUpstreamDoc] })
        (fun _ => none) [transformDocument exUpstreamDoc] 8).2.1 = some s2
      ∧ s2.totalSynced
          = (syncNextBatch (some "tok") (some resumeState)
              (fun _ => Except.ok { count := 1, nextPageCursor := none,
                                    results := [exUpstreamDoc] })
              (fun _ => none) [transformDocument exUpstreamDoc] 8).2.2.length
      ∧ (syncNextBatch (some "tok") (some resumeState)
          (fun _ => Except.ok { count := 1, nextPageCursor := none,
                                results := [exUpstreamDoc] })
          (fun _ => none) [transformDocument exUpstreamDoc] 8).1.totalSynced
          = (syncNextBatch (some "tok") (some resumeState)
              (fun _ => Except.ok { count := 1, nextPageCursor := none,
                                    results := [exUpstreamDoc] })
              (fun _ => none) [transformDocument exUpstreamDoc] 8).2.2.length :=
  total_reconciliation (some "tok") resumeState
    (fun _ => Except.ok { count := 1, nextPageCursor := none,
                          results := [exUpstreamDoc] })
    (fun _ => none) [transformDocument exUpstreamDoc] 8
    { count := 1, nextPageCursor := none, results := [exUpstreamDoc] }
    (by decide) (by decide) rfl (fun _ => rfl)

/-- Claim C4 (amended): the advance step consults the page fetch at exactly
one argument, `pageCursor = lastCursor` together with `updatedAfter =
lastSyncAt` rendered (when set), on every page of the cycle — not only on the
first page: two fetch oracles that agree at that one argument give identical
steps. -/
theorem fetch_lower_bound_every_page (tok : Option String) (s : SyncRecord)
    (fetch1 fetch2 : FetchCall → Except String Page)
    (fail : DocRecord → Option String) (store : Store) (now : Nat)
    (hagree : fetch1 { pageCursor := s.lastCursor,
                       updatedAfter := s.lastSyncAt.map DateVal.toISOString }
            = fetch2 { pageCursor := s.lastCursor,
                       updatedAfter := s.lastSyncAt.map DateVal.toISOString }) :
    syncNextBatch tok (some s) fetch1 fail store now
      = syncNextBatch tok (some s) fetch2 fail store now := by
  have hagree2 : fetch1 (fetchCallOf s) = fetch2 (fetchCallOf s) := hagree
  simp only [syncNextBatch]
  rw [hagree2]

/-- Witness for fetch_lower_bound_every_page at a concrete mid-cycle state
and two oracles that agree at the call the engine makes. -/
theorem fetch_lower_bound_every_page_witness :
    syncNextBatch (some "tok") (some resumeState)
        (fun call => if call.pageCursor = some "C7"
                     then Except.error "agreed" else Except.error "other")
        (fun _ => none) [] 4
      = syncNextBatch (some "tok") (some resumeState)
          (fun _ => Except.error "agreed") (fun _ => none) [] 4 :=
  fetch_lower_bound_every_page (some "tok") resumeState
    (fun call => if call.pageCursor = some "C7"
                 then Except.error "agreed" else Except.error "other")
    (fun _ => Except.error "agreed") (fun _ => none) [] 4 rfl

/-- Claim C10: whenever `startSync` runs with a configured token and the
persisted status is not "syncing" (including a missing row), the persisted
row after the call has status "syncing", a null `lastCursor`, and a cleared
`errorMsg` — while `clearError` always preserves `lastCursor`. -/
theorem start_sync_resets_cursor (tok : Option String)
    (state : Option SyncRecord)
    (htok : tokenPresent tok = true)
    (hnot : ∀ s, state = some s → s.status ≠ "syncing") :
    (∃ r, (startSync tok state).2 = some r
      ∧ r.status = "syncing" ∧ r.lastCursor = none ∧ r.errorMsg = none)
  ∧ (∀ s : SyncRecord, (clearError s).lastCursor = s.lastCursor) := by
  refine ⟨?_, fun s => rfl⟩
  match state, hnot with
  | none, _ =>
    have hstep : (startSync tok none).2
        = some { status := "syncing", lastCursor := none, lastSyncAt := none,
                 totalSynced := 0, errorMsg := none } := by
      simp [startSync, htok]
    exact ⟨_, hstep, rfl, rfl, rfl⟩
  | some s, hnot =>
    have hs : (s.status = "syncing") = False := by
      simp [hnot s rfl]
    have hstep : (startSync tok (some s)).2
        = some { s with status := "syncing", errorMsg := none,
                        lastCursor := none } := by
      simp [startSync, htok, hs]
    exact ⟨_, hstep, rfl, rfl, rfl⟩

/-- Witness for start_sync_resets_cursor at the concrete error state holding
a retained cursor. -/
theorem start_sync_resets_cursor_witness :
    (∃ r, (startSync (some "tok") (some errState)).2 = some r
      ∧ r.status = "syncing" ∧ r.lastCursor = none ∧ r.errorMsg = none)
  ∧ (∀ s : SyncRecord, (clearError s).lastCursor = s.lastCursor) :=
  start_sync_resets_cursor (some "tok") (some errState) (by decide)
    (by intro s h; injection h with h2; subst h2; decide)

/-- A sequence of top-level calls through the client: each call arrives at a
clock time and sees a trace of network attempts; `retryCount` starts at 0 on
each call (the default argument of `rateLimitedFetch`), and the
`lastRequestTime` field is threaded from one call to the next. -/
def clientRun : List (Nat × List Attempt) → Nat → List Nat
  | [], _ => []
  | (now, attempts) :: rest, lastRequestTime =>
    let r := rateLimitedFetchRun attempts 0 lastRequestTime now
    r.1 ++ clientRun rest r.2.1

/-- Clock sanity of a call sequence: each call arrives no earlier than the
stored `lastRequestTime` (which was set at an earlier instant, so a monotone
clock guarantees this). -/
def callsWellTimed : List (Nat × List Attempt) → Nat → Prop
  | [], _ => True
  | (now, attempts) :: rest, lastRequestTime =>
    lastRequestTime ≤ now
      ∧ callsWellTimed rest (rateLimitedFetchRun attempts 0 lastRequestTime now).2.1

/-- Claim C5: every two consecutive outbound requests through
`rateLimitedFetch` are at least `minRequestInterval` (3000 ms) apart — within
one call (including 429/500 retries, whose backoff waits only delay the next
send further) and across consecutive calls, because `lastRequestTime` is
updated to the send instant, immediately before sending. -/
theorem rate_limit_spacing (attempts : List Attempt)
    (retryCount lastRequestTime now : Nat) (h : lastRequestTime ≤ now) :
    (List.Chain (fun a b => a + minRequestInterval ≤ b) lastRequestTime
        (rateLimitedFetchRun attempts retryCount lastRequestTime now).1
      ∧ (rateLimitedFetchRun attempts retryCount lastRequestTime now).2.1
          = ((rateLimitedFetchRun attempts retryCount lastRequestTime now).1).getLastD
              lastRequestTime)
  ∧ (∀ (calls : List (Nat × List Attempt)) (last0 : Nat),
        callsWellTimed calls last0 →
        List.Chain (fun a b => a + minRequestInterval ≤ b) last0
          (clientRun calls last0)) := by
  have main : ∀ (attempts : List Attempt) (rc last now : Nat), last ≤ now →
      List.Chain (fun a b => a + minRequestInterval ≤ b) last
          (rateLimitedFetchRun attempts rc last now).1
        ∧ (rateLimitedFetchRun attempts rc last now).2.1
            = ((rateLimitedFetchRun attempts rc last now).1).getLastD last := by
    intro attempts
    induction attempts with
    | nil => intro rc last now hle; simp [rateLimitedFetchRun]
    | cons a rest ih =>
      intro rc last now hle
      rcases hd : retryDecision a.response.status a.response.retryAfter rc
        with ⟨wait, rc2⟩ | _
      · have hrec := ih rc2 (admissionSend last now)
          (admissionSend last now + a.latency + wait) (by omega)
        constructor
        · simp only [rateLimitedFetchRun, hd]
          exact List.Chain.cons (admissionSend_lower last now hle) hrec.1
        · simp only [rateLimitedFetchRun, hd, List.getLastD_cons]
          exact hrec.2
      · constructor
        · simp only [rateLimitedFetchRun, hd]
          exact List.Chain.cons (admissionSend_lower last now hle) List.Chain.nil
        · simp [rateLimitedFetchRun, hd]
  refine ⟨main attempts retryCount lastRequestTime now h, ?_⟩
  intro calls
  induction calls with
  | nil => intro last0 hw; exact List.Chain.nil
  | cons c rest ih =>
    intro last0 hw
    rcases c with ⟨now1, att1⟩
    rcases hw with ⟨hle1, hw2⟩
    have h1 := main att1 0 last0 now1 hle1
    simp only [clientRun]
    exact chain_append_of h1.1 (h1.2 ▸ ih _ hw2)

/-- Witness for rate_limit_spacing on a concrete trace: a 429 retry followed
by a success, then a second top-level call. -/
theorem rate_limit_spacing_witness :
    (List.Chain (fun a b => a + minRequestInterval ≤ b) 0
        (rateLimitedFetchRun
          [{ response := { status := 429, retryAfter := none }, latency := 50 },
           { response := { status := 200, retryAfter := none }, latency := 10 }]
          0 0 1000).1
      ∧ (rateLimitedFetchRun
          [{ response := { status := 429, retryAfter := none }, latency := 50 },
           { response := { status := 200, retryAfter := none }, latency := 10 }]
          0 0 1000).2.1
          = ((rateLimitedFetchRun
              [{ response := { status := 429, retryAfter := none }, latency := 50 },
               { response := { status := 200, retryAfter := none }, latency := 10 }]
              0 0 1000).1).getLastD 0)
  ∧ (∀ (calls : List (Nat × List Attempt)) (last0 : Nat),
        callsWellTimed calls last0 →
        List.Chain (fun a b => a + minRequestInterval ≤ b) last0
          (clientRun calls last0)) :=
  rate_limit_spacing
    [{ response := { status := 429, retryAfter := none }, latency := 50 },
     { response := { status := 200, retryAfter := none }, latency := 10 }]
    0 0 1000 (by decide)

/-- A surfaced decision never comes from a 429 status. -/
theorem retryDecision_surface_ne_429 (st : Nat) (ra : Option Nat) (rc : Nat)
    (h : retryDecision st ra rc = RetryDecision.surface) : st ≠ 429 := by
  intro hst
  subst hst
  simp [retryDecision] at h

/-- Claim C6: 429 responses are always retried (no retry-count cap) after the
provider Retry-After wait when present and otherwise 2 x minRequestInterval;
500 responses are retried at most 3 times with exponential waits 2s, 4s, 8s
and the fourth consecutive 500 is surfaced to the caller; every other
non-success status is surfaced immediately with no retry. -/
theorem retry_policy_split :
    (∀ (ra : Option Nat) (rc : Nat),
        retryDecision 429 ra rc
          = RetryDecision.retryAfterWait
              (match ra with
               | some secs => secs * 1000
               | none => minRequestInterval * 2) rc)
  ∧ (∀ (ra : Option Nat) (rc : Nat), rc < 3 →
        retryDecision 500 ra rc
          = RetryDecision.retryAfterWait (2 ^ rc * 2000) (rc + 1))
  ∧ retryDecision 500 none 0 = RetryDecision.retryAfterWait 2000 1
  ∧ retryDecision 500 none 1 = RetryDecision.retryAfterWait 4000 2
  ∧ retryDecision 500 none 2 = RetryDecision.retryAfterWait 8000 3
  ∧ (∀ (ra : Option Nat) (rc : Nat), 3 ≤ rc →
        retryDecision 500 ra rc = RetryDecision.surface)
  ∧ (∀ (st : Nat) (ra : Option Nat) (rc : Nat), st ≠ 429 → st ≠ 500 →
        retryDecision st ra rc = RetryDecision.surface)
  ∧ (∀ (attempts : List Attempt) (rc last now : Nat) (r : HttpResponse),
        (rateLimitedFetchRun attempts rc last now).2.2 = some r →
        r.status ≠ 429)
  ∧ (∀ (a1 a2 a3 a4 : Attempt) (rest : List Attempt) (last now : Nat),
        a1.response.status = 500 → a2.response.status = 500 →
        a3.response.status = 500 → a4.response.status = 500 →
        (rateLimitedFetchRun (a1 :: a2 :: a3 :: a4 :: rest) 0 last now).2.2
          = some a4.response) := by
  refine ⟨?_, ?_, by decide, by decide, by decide, ?_, ?_, ?_, ?_⟩
  · intro ra rc
    simp [retryDecision]
  · intro ra rc hrc
    simp [retryDecision, hrc]
  · intro ra rc hrc
    have h3 : ¬ rc < 3 := by omega
    simp [retryDecision, h3]
  · intro st ra rc h429 h500
    simp [retryDecision, h429, h500]
  · intro attempts
    induction attempts with
    | nil => intro rc last now r h; simp [rateLimitedFetchRun] at h
    | cons a rest ih =>
      intro rc last now r h
      rcases hd : retryDecision a.response.status a.response.retryAfter rc
        with ⟨wait, rc2⟩ | _
      · simp only [rateLimitedFetchRun, hd] at h
        exact ih rc2 (admissionSend last now)
          (admissionSend last now + a.latency + wait) r h
      · simp only [rateLimitedFetchRun, hd] at h
        have hr : r = a.response := by
          simpa using h.symm
        subst hr
        exact retryDecision_surface_ne_429 _ _ _ hd
  · intro a1 a2 a3 a4 rest last now h1 h2 h3 h4
    simp [rateLimitedFetchRun, retryDecision, h1, h2, h3, h4]

/-- Witness for retry_policy_split: a 429 at a high retry count still retries
with the provider wait; a 404 is surfaced; four consecutive 500 responses end
with the fourth surfaced. -/
theorem retry_policy_split_witness :
    retryDecision 429 (some 7) 99 = RetryDecision.retryAfterWait 7000 99
  ∧ retryDecision 500 none 3 = RetryDecision.surface
  ∧ retryDecision 404 none 0 = RetryDecision.surface
  ∧ (rateLimitedFetchRun
      [{ response := { status := 500, retryAfter := none }, latency := 1 },
       { response := { status := 500, retryAfter := none }, latency := 1 },
       { response := { status := 500, retryAfter := none }, latency := 1 },
       { response := { status := 500, retryAfter := none }, latency := 1 }]
      0 0 0).2.2 = some { status := 500, retryAfter := none } := by
  obtain ⟨h429, h500, _, _, _, hcap, hother, _, hrun⟩ := retry_policy_split
  refine ⟨h429 (some 7) 99, hcap none 3 (by decide),
    hother 404 none 0 (by decide) (by decide), ?_⟩
  exact hrun
    { response := { status := 500, retryAfter := none }, latency := 1 }
    { response := { status := 500, retryAfter := none }, latency := 1 }
    { response := { status := 500, retryAfter := none }, latency := 1 }
    { response := { status := 500, retryAfter := none }, latency := 1 }
    [] 0 0 rfl rfl rfl rfl

/-- Boolean success of an upstream update outcome (used only to state the
partition of IDs into the success and failure sets). -/
def updateOk : Except String Unit → Bool
  | Except.ok _ => true
  | Except.error _ => false

/-- Claim C8: the batch archive makes exactly one
`updateDocument(id, location archive)` call per ID, in order, regardless of
individual failures; the success set is the IDs whose call succeeded and the
failure list pairs each failed ID with its reason; the result reports the
success count, the failed count, and a per-ID reason list; and the local
table update sets location and lastMovedAt on exactly the success-set rows,
leaving all other rows unchanged. -/
theorem batch_archive_best_effort (tok : Option String)
    (updateDoc : String → UpdatePatch → Except String Unit)
    (store : Store) (ids : List String) (now : Nat)
    (htok : tokenPresent tok = true) :
    (batchArchive updateDoc ids).1 = ids.map (fun id => (id, archivePatch))
  ∧ (batchArchive updateDoc ids).2.1
      = ids.filter (fun id => updateOk (updateDoc id archivePatch))
  ∧ (batchArchive updateDoc ids).2.2
      = ids.filterMap (fun id =>
          match updateDoc id archivePatch with
          | Except.ok _ => none
          | Except.error e => some (id, e))
  ∧ (archiveDocuments tok updateDoc store ids now).1
      = { success := (batchArchive updateDoc ids).2.1.length,
          failed := (batchArchive updateDoc ids).2.2.length,
          errors := (batchArchive updateDoc ids).2.2.map
                      (fun f => f.1 ++ ": " ++ f.2) }
  ∧ (archiveDocuments tok updateDoc store ids now).2
      = store.map (fun d =>
          if (batchArchive updateDoc ids).2.1.contains d.readwiseId then
            { d with location := "archive",
                     lastMovedAt := some (DateVal.fromMillis now) }
          else d) := by
  have htrace : ∀ l : List String,
      (batchArchive updateDoc l).1 = l.map (fun id => (id, archivePatch)) := by
    intro l
    induction l with
    | nil => rfl
    | cons id rest ih =>
      rcases hu : updateDoc id archivePatch with v | e <;>
        simp [batchArchive, hu, ih]
  have hsucc : ∀ l : List String,
      (batchArchive updateDoc l).2.1
        = l.filter (fun id => updateOk (updateDoc id archivePatch)) := by
    intro l
    induction l with
    | nil => rfl
    | cons id rest ih =>
      rcases hu : updateDoc id archivePatch with v | e <;>
        simp [batchArchive, hu, ih, List.filter, updateOk]
  have hfail : ∀ l : List String,
      (batchArchive updateDoc l).2.2
        = l.filterMap (fun id =>
            match updateDoc id archivePatch with
            | Except.ok _ => none
            | Except.error e => some (id, e)) := by
    intro l
    induction l with
    | nil => rfl
    | cons id rest ih =>
      rcases hu : updateDoc id archivePatch with v | e <;>
        simp [batchArchive, hu, ih, List.filterMap_cons]
  refine ⟨htrace ids, hsucc ids, hfail ids, ?_, ?_⟩
  · simp [archiveDocuments, htok]
  · simp only [archiveDocuments, htok, Bool.true_eq_false, if_neg,
      Bool.false_eq_true, not_false_eq_true, if_false]
    rcases hlen : (batchArchive updateDoc ids).2.1 with _ | ⟨x, xs⟩
    · simp [hlen]
    · simp [hlen]

/-- Witness for batch_archive_best_effort: two IDs where the second is
rejected upstream; the result reports one success, one failure, and the
per-ID reason. -/
theorem batch_archive_best_effort_witness :
    (archiveDocuments (some "tok")
        (fun id _ => if id = "b" then Except.error "denied" else Except.ok ())
        [] ["a", "b"] 5).1
      = { success := 1, failed := 1, errors := ["b: denied"] } := by
  have h := batch_archive_best_effort (some "tok")
    (fun id _ => if id = "b" then Except.error "denied" else Except.ok ())
    [] ["a", "b"] 5 (by decide)
  rw [h.2.2.2.1]
  decide
